import Mathlib

/-!
Verification of the ownership/borrowing examples repository.

The repository's examples exercise an ownership and borrow discipline that the
host compiler enforces; the specification documents that discipline as a small
state machine per binding.  The first part of this file embeds that state
machine; the second part embeds the executable functions of the repository
(`result_examples.rs`, `option_examples.rs`, the ownership runner, and the
string helpers `first_word` / `get_first_word`).
-/

namespace BorrowModel

/-- Modelled from the spec: the phase of a Binding.  The spec's ownership
states Owned / Shared(n) / Exclusive are all "live" phases distinguished by
the reference counters below; Moved-out and Dropped are the terminal phases
(spec 4.3: "Terminal states: Dropped, Moved-out"). -/
inductive Phase where
  | live
  | movedOut
  | dropped
deriving DecidableEq, BEq

/-- Modelled from the spec: the per-binding state of the Binding Table.
`shared` counts active shared references, `exclusive` counts active
exclusive references (spec 3, 4.3).  The spec state Owned corresponds to
`⟨live, 0, 0⟩`, Shared(n) to `⟨live, n, 0⟩` with n ≥ 1, Exclusive to
`⟨live, 0, 1⟩`. -/
structure BindingState where
  phase : Phase
  shared : Nat
  exclusive : Nat
deriving DecidableEq, BEq

/-- Modelled from the spec: the error taxonomy of the conceptual checker
(spec 7): UseAfterMove, UseAfterDrop, BorrowConflict, MoveWhileBorrowed,
LifetimeViolation. -/
inductive CheckError where
  | useAfterMove
  | useAfterDrop
  | borrowConflict
  | moveWhileBorrowed
  | lifetimeViolation
deriving DecidableEq, BEq

/-- Modelled from the spec: the events a program point can apply to a
binding — creating/ending a shared or exclusive reference, transferring
ownership, and using the binding (spec 4.1, 4.3). -/
inductive Event where
  | borrowShared
  | borrowExclusive
  | endShared
  | endExclusive
  | moveOut
  | useBinding
deriving DecidableEq, BEq

/-- Modelled from the spec: a freshly declared binding is Owned
(spec 4.1 `declare`). -/
def initialBinding : BindingState := ⟨Phase.live, 0, 0⟩

/-- Modelled from the spec: one transition of the borrow-checker state
machine (spec 4.3).  Creating an exclusive reference while any reference is
active fails with BorrowConflict; creating a shared reference while an
exclusive one is active fails with BorrowConflict; ownership transfer while
borrowed fails with MoveWhileBorrowed; any use of a Moved-out (resp.
Dropped) binding fails with UseAfterMove (resp. UseAfterDrop). -/
def step (s : BindingState) (e : Event) : Except CheckError BindingState :=
  match e with
  | Event.borrowShared =>
    match s.phase with
    | Phase.movedOut => Except.error CheckError.useAfterMove
    | Phase.dropped => Except.error CheckError.useAfterDrop
    | Phase.live =>
      if 0 < s.exclusive then Except.error CheckError.borrowConflict
      else Except.ok { s with shared := s.shared + 1 }
  | Event.borrowExclusive =>
    match s.phase with
    | Phase.movedOut => Except.error CheckError.useAfterMove
    | Phase.dropped => Except.error CheckError.useAfterDrop
    | Phase.live =>
      if 0 < s.shared ∨ 0 < s.exclusive then Except.error CheckError.borrowConflict
      else Except.ok { s with exclusive := s.exclusive + 1 }
  | Event.endShared => Except.ok { s with shared := s.shared - 1 }
  | Event.endExclusive => Except.ok { s with exclusive := s.exclusive - 1 }
  | Event.moveOut =>
    match s.phase with
    | Phase.movedOut => Except.error CheckError.useAfterMove
    | Phase.dropped => Except.error CheckError.useAfterDrop
    | Phase.live =>
      if 0 < s.shared ∨ 0 < s.exclusive then Except.error CheckError.moveWhileBorrowed
      else Except.ok { s with phase := Phase.movedOut }
  | Event.useBinding =>
    match s.phase with
    | Phase.movedOut => Except.error CheckError.useAfterMove
    | Phase.dropped => Except.error CheckError.useAfterDrop
    | Phase.live => Except.ok s

/-- Modelled from the spec: a binding is still Owned when it is live and no
reference to it is active (spec 4.3 state Owned). -/
def stillOwned (b : BindingState) : Bool :=
  b.phase == Phase.live && b.shared == 0 && b.exclusive == 0

/-- Modelled from the spec: scope-exit treatment of one binding — a
still-Owned binding transitions to Dropped, a Moved-out binding is a no-op
(spec 4.3: "Owned/Moved-out → Dropped on scope exit (Moved-out bindings are
no-ops on drop since value already transferred)", spec 8: "Moved-out
bindings are unaffected"). -/
def dropBinding (b : BindingState) : BindingState :=
  if stillOwned b then { b with phase := Phase.dropped } else b

/-- Modelled from the spec: a scope owns a list of bindings in declaration
order (spec 3 "Scope").  `dropScope` processes them at scope exit in reverse
declaration order, returning the updated bindings (in their original order)
together with the release log: the names of the dropped bindings in the
order their resources were released (spec 4.1 `drop(scope)`). -/
def dropScope : List (String × BindingState) → List (String × BindingState) × List String
  | [] => ([], [])
  | entry :: rest =>
    let r := dropScope rest
    ((entry.1, dropBinding entry.2) :: r.1,
     r.2 ++ (if stillOwned entry.2 then [entry.1] else []))

/-- Modelled from the spec: run a sequence of events from a state,
propagating the first checker error (spec 7: errors "abort analysis of the
offending construct"). -/
def runEvents (s : BindingState) : List Event → Except CheckError BindingState
  | [] => Except.ok s
  | e :: rest =>
    match step s e with
    | Except.ok s' => runEvents s' rest
    | Except.error err => Except.error err

/-- Modelled from the spec: Move/Copy classification of a value
(spec 4.2 `classify`). -/
inductive Classification where
  | copySem
  | moveSem
deriving DecidableEq, BEq

/-- Modelled from the spec: assignment or argument passing of a binding's
value (spec 4.2).  For a Copy-semantics value the bit pattern is duplicated
and the source stays Owned with its state unchanged; for a Move-semantics
value ownership is transferred, so the source becomes Moved-out. -/
def assignPass (c : Classification) (s : BindingState) : Except CheckError BindingState :=
  match c with
  | Classification.copySem =>
    match s.phase with
    | Phase.movedOut => Except.error CheckError.useAfterMove
    | Phase.dropped => Except.error CheckError.useAfterDrop
    | Phase.live => Except.ok s
  | Classification.moveSem => step s Event.moveOut

/-- The states reachable from a fresh binding by successful checker
transitions and scope-exit drops. -/
inductive Reachable : BindingState → Prop where
  | init : Reachable initialBinding
  | step : ∀ s e s', Reachable s → step s e = Except.ok s' → Reachable s'
  | drop : ∀ s, Reachable s → Reachable (dropBinding s)

end BorrowModel

namespace ResultExamples

/-- `result_to_option` from `src/result_examples.rs`: `r.ok()` maps
`Ok(n)` to `Some(n)` and any `Err(_)` to `None`.  `Result<i32, String>` is
embedded as `Except String Int`. -/
def result_to_option (r : Except String Int) : Option Int :=
  match r with
  | Except.ok n => some n
  | Except.error _ => none

/-- `option_to_result` from `src/result_examples.rs`:
`o.ok_or(String::from("Value was None"))` maps `Some(n)` to `Ok(n)` and
`None` to `Err("Value was None")`. -/
def option_to_result (o : Option Int) : Except String Int :=
  match o with
  | some n => Except.ok n
  | none => Except.error "Value was None"

/-- The errors of the external filesystem boundary (spec 6:
`open(path) -> handle | NotFoundError`, `readToString(handle) -> text |
IOError`), standing for `io::Error` in `src/result_examples.rs`. -/
inductive IoError where
  | notFound
  | readFailure
deriving DecidableEq, BEq

/-- The external filesystem-read capability consumed by
`read_file_contents` (spec 6): opening a path yields a handle or fails, and
reading a handle yields the file's text or fails.  Handles are opaque
naturals. -/
structure FileSystem where
  openFile : String → Except IoError Nat
  readToString : Nat → Except IoError String

/-- `read_file_contents` from `src/result_examples.rs`: opens the path and
reads it to a string, propagating either error to the caller with the `?`
operator. -/
def read_file_contents (fs : FileSystem) (path : String) : Except IoError String := do
  let file ← fs.openFile path
  let contents ← fs.readToString file
  pure contents

/-- Rendering of an `IoError`, standing for the `Display` text interpolated
by `main`'s `println!` arms. -/
def describeIoError : IoError → String
  | IoError.notFound => "No such file or directory (os error 2)"
  | IoError.readFailure => "read failure"

/-- The `?`-operator demonstration segment of `main` in
`src/result_examples.rs` (example 3): it matches on
`read_file_contents("nonexistent.txt")`, printing the contents on `Ok` and
an error message on `Err`. -/
def demo3Lines (fs : FileSystem) : List String :=
  "3. ? Operator (file reading):" ::
    (match read_file_contents fs "nonexistent.txt" with
     | Except.ok contents => ["   File contents: " ++ contents]
     | Except.error e => ["   Error reading file: " ++ describeIoError e])

/-- The output of `main`'s following segment (example 4,
`parse_and_double("21")` succeeds with 42), used to witness that execution
continues past a file-reading error. -/
def demo4Lines : List String :=
  ["4. Chaining with and_then:", "   Parsed and doubled: 42"]

/-- `main` from example 3 onwards: the file-reading demonstration followed
by the next demonstration — the program continues regardless of the match
outcome. -/
def mainFromDemo3 (fs : FileSystem) : List String :=
  demo3Lines fs ++ demo4Lines

/-- A sample filesystem on which opening any path fails with a not-found
error, as for `"nonexistent.txt"` in the demonstration run. -/
def fsAllMissing : FileSystem :=
  ⟨fun _ => Except.error IoError.notFound,
   fun _ => Except.error IoError.readFailure⟩

end ResultExamples

namespace OptionExamples

/-- `find_user` from `src/examples/option_examples.rs`: id 1 is "Alice",
id 2 is "Bob", anything else is `None`.  `u32` is embedded as `Nat` (the
function only compares against small literals). -/
def find_user (id : Nat) : Option String :=
  if id = 1 then some "Alice"
  else if id = 2 then some "Bob"
  else none

/-- `get_long_username` from `src/examples/option_examples.rs`:
`find_user(id).filter(|name| name.len() > 4)`. -/
def get_long_username (id : Nat) : Option String :=
  (find_user id).filter (fun name => name.length > 4)

end OptionExamples

namespace StringWords

/-- `get_first_word` from `src/examples/ownership/04_string_types.rs`: scan
the byte slice of `s`; at the first index `i` whose byte equals `b' '` (32)
return the slice `&s[0..i]`; if no byte is a space return `s` whole.
Strings are embedded as their byte lists. -/
def get_first_word (s : List Nat) : List Nat :=
  match s.findIdx? (fun b => b = 32) with
  | some i => s.take i
  | none => s

/-- `first_word` from `src/examples/ownership/05_lifetimes.rs`: the same
scan as `get_first_word`, written with an explicit lifetime parameter in the
source but byte-for-byte the same loop body. -/
def first_word (s : List Nat) : List Nat :=
  match s.findIdx? (fun b => b = 32) with
  | some i => s.take i
  | none => s

/-- Specification-side description of the first word: the longest prefix of
non-space bytes, i.e. everything strictly before the first space byte, or
the whole input when no space occurs. -/
def firstWordSpec (s : List Nat) : List Nat :=
  s.takeWhile (fun b => !(b = 32 : Bool))

end StringWords

namespace Runner

/-- The observable actions of `main` in
`src/examples/ownership_runner.rs`: printing the menu, printing the
invalid-choice message, running one of the five demos, or printing the
separator line between demos in the "all" branch. -/
inductive RunnerAction where
  | menu
  | invalidChoice (choice : String)
  | runDemo (n : Nat)
  | separatorLine
deriving DecidableEq, BEq

/-- The "all" arm of the runner's match: the five demos in numeric order
with a separator line printed between consecutive demos. -/
def allDemos : List RunnerAction :=
  [RunnerAction.runDemo 1, RunnerAction.separatorLine,
   RunnerAction.runDemo 2, RunnerAction.separatorLine,
   RunnerAction.runDemo 3, RunnerAction.separatorLine,
   RunnerAction.runDemo 4, RunnerAction.separatorLine,
   RunnerAction.runDemo 5]

/-- The `match choice` of the runner's `main`: the literals "1".."5" run the
corresponding demo, "all" runs all five, and any other choice prints the
invalid-choice message followed by the menu. -/
def dispatchChoice (choice : String) : List RunnerAction :=
  if choice = "1" then [RunnerAction.runDemo 1]
  else if choice = "2" then [RunnerAction.runDemo 2]
  else if choice = "3" then [RunnerAction.runDemo 3]
  else if choice = "4" then [RunnerAction.runDemo 4]
  else if choice = "5" then [RunnerAction.runDemo 5]
  else if choice = "all" then allDemos
  else [RunnerAction.invalidChoice choice, RunnerAction.menu]

/-- `main` of `src/examples/ownership_runner.rs`: `args` is the argv vector
(element 0 is the program name).  When `args.len() > 1` the choice is
`args[1]` and is dispatched; otherwise the menu is printed and `main`
returns. -/
def runnerMain (args : List String) : List RunnerAction :=
  if h : 1 < args.length then dispatchChoice args[1]
  else [RunnerAction.menu]

/-- The demos a list of actions runs, in order. -/
def demosRun (acts : List RunnerAction) : List Nat :=
  acts.filterMap (fun a =>
    match a with
    | RunnerAction.runDemo n => some n
    | _ => none)

end Runner

section Helpers

/-- Returning the take up to the first index satisfying `p` (whole list when
none) is the same as taking while `p` fails. -/
theorem findIdxTake_eq_takeWhile (p : Nat → Bool) (s : List Nat) :
    (match s.findIdx? p with
     | some i => s.take i
     | none => s) = s.takeWhile (fun b => !(p b)) := by
  induction s with
  | nil => rfl
  | cons a l ih =>
    by_cases h : p a = true
    · simp [List.findIdx?_cons, h, List.takeWhile_cons]
    · cases hf : l.findIdx? p with
      | some i =>
        simp [List.findIdx?_cons, h, hf, List.takeWhile_cons]
        rw [hf] at ih
        simpa using ih
      | none =>
        simp [List.findIdx?_cons, h, hf, List.takeWhile_cons]
        rw [hf] at ih
        simpa using ih

end Helpers

/-- C8: `first_word` (05_lifetimes.rs) and `get_first_word`
(04_string_types.rs) are extensionally equal; both return the prefix of the
input ending just before the first space byte (byte 32), or the whole input
when no space occurs; and the result is always a prefix of the input. -/
theorem first_word_get_first_word_equiv :
    (∀ s, StringWords.first_word s = StringWords.get_first_word s) ∧
    (∀ s, StringWords.get_first_word s = StringWords.firstWordSpec s) ∧
    (∀ s, StringWords.get_first_word s <+: s) := by
  refine ⟨fun s => rfl, fun s => ?_, fun s => ?_⟩
  · exact findIdxTake_eq_takeWhile (fun b => b == 32) s
  · unfold StringWords.get_first_word
    cases h : s.findIdx? (fun b => b = 32) with
    | some i => exact ⟨s.drop i, List.take_append_drop i s⟩
    | none => exact ⟨[], List.append_nil s⟩

/-- C9: the Option-side round trip `result_to_option ∘ option_to_result`
is the identity; the Result-side round trip is the identity on `Ok` inputs,
while every `Err` input collapses to `Err "Value was None"`. -/
theorem result_option_round_trips :
    (∀ o : Option Int,
      ResultExamples.result_to_option (ResultExamples.option_to_result o) = o) ∧
    (∀ n : Int,
      ResultExamples.option_to_result (ResultExamples.result_to_option (Except.ok n)) =
        Except.ok n) ∧
    (∀ e : String,
      ResultExamples.option_to_result (ResultExamples.result_to_option (Except.error e)) =
        Except.error "Value was None") := by
  refine ⟨fun o => ?_, fun n => rfl, fun e => rfl⟩
  cases o <;> rfl

/-- C10: `get_long_username id` returns `some name` exactly when
`find_user id` does and `name` is longer than 4; user 1 ("Alice") passes
the filter, user 2 ("Bob") is filtered out, and unknown ids yield none. -/
theorem get_long_username_spec :
    (∀ id name, OptionExamples.get_long_username id = some name ↔
      OptionExamples.find_user id = some name ∧ name.length > 4) ∧
    OptionExamples.get_long_username 1 = some "Alice" ∧
    OptionExamples.get_long_username 2 = none ∧
    (∀ id, id ≠ 1 → id ≠ 2 → OptionExamples.get_long_username id = none) := by
  have hfilter : ∀ (o : Option String) (name : String),
      (o.filter fun n => n.length > 4) = some name ↔ o = some name ∧ name.length > 4 := by
    intro o name
    cases o with
    | none => simp [Option.filter]
    | some a =>
      by_cases h : a.length > 4
      · simp only [Option.filter, decide_eq_true_eq, if_pos h, Option.some.injEq]
        constructor
        · intro he
          exact ⟨he, he ▸ h⟩
        · intro he
          exact he.1
      · rw [Option.filter, if_neg (by simpa using h)]
        constructor
        · intro he
          exact absurd he (by simp)
        · rintro ⟨ha, hlen⟩
          rcases Option.some.inj ha with rfl
          exact absurd hlen h
  refine ⟨fun id name => ?_, by decide, by decide, fun id h1 h2 => ?_⟩
  · exact hfilter (OptionExamples.find_user id) name
  · unfold OptionExamples.get_long_username OptionExamples.find_user
    simp [h1, h2, Option.filter]

/-- C10 witness: an id outside the user table yields no long username. -/
theorem get_long_username_spec_witness :
    OptionExamples.get_long_username 7 = none :=
  get_long_username_spec.2.2.2 7 (by decide) (by decide)

/-- C7: the runner maps argv[1] in "1".."5" to exactly the corresponding
demo, "all" to all five demos in numeric order, any other value to no demo
plus the invalid-choice message and the menu, and a missing argv[1] to the
menu alone; arguments past argv[1] are ignored. -/
theorem runner_cli_selector (a0 : String) (rest : List String) :
    Runner.runnerMain (a0 :: "1" :: rest) = [Runner.RunnerAction.runDemo 1] ∧
    Runner.runnerMain (a0 :: "2" :: rest) = [Runner.RunnerAction.runDemo 2] ∧
    Runner.runnerMain (a0 :: "3" :: rest) = [Runner.RunnerAction.runDemo 3] ∧
    Runner.runnerMain (a0 :: "4" :: rest) = [Runner.RunnerAction.runDemo 4] ∧
    Runner.runnerMain (a0 :: "5" :: rest) = [Runner.RunnerAction.runDemo 5] ∧
    Runner.runnerMain (a0 :: "all" :: rest) = Runner.allDemos ∧
    Runner.demosRun Runner.allDemos = [1, 2, 3, 4, 5] ∧
    (∀ c, c ∉ (["1", "2", "3", "4", "5", "all"] : List String) →
      Runner.runnerMain (a0 :: c :: rest) =
        [Runner.RunnerAction.invalidChoice c, Runner.RunnerAction.menu] ∧
      Runner.demosRun (Runner.runnerMain (a0 :: c :: rest)) = []) ∧
    Runner.runnerMain [a0] = [Runner.RunnerAction.menu] ∧
    Runner.runnerMain ([] : List String) = [Runner.RunnerAction.menu] := by
  have hmain : ∀ c : String, Runner.runnerMain (a0 :: c :: rest) = Runner.dispatchChoice c := by
    intro c
    unfold Runner.runnerMain
    rw [dif_pos (by simp)]
    simp
  refine ⟨?_, ?_, ?_, ?_, ?_, ?_, rfl, fun c hc => ?_, rfl, rfl⟩
  · rw [hmain]; rfl
  · rw [hmain]; rfl
  · rw [hmain]; rfl
  · rw [hmain]; rfl
  · rw [hmain]; rfl
  · rw [hmain]; rfl
  · simp only [List.mem_cons, List.not_mem_nil, or_false, not_or] at hc
    obtain ⟨h1, h2, h3, h4, h5, hall⟩ := hc
    rw [hmain]
    unfold Runner.dispatchChoice
    rw [if_neg h1, if_neg h2, if_neg h3, if_neg h4, if_neg h5, if_neg hall]
    exact ⟨rfl, rfl⟩

/-- C7 witness: an unrecognized argv[1] runs no demo and prints the
invalid-choice message and the menu. -/
theorem runner_cli_selector_witness :
    Runner.runnerMain ["ownership", "6", "extra"] =
      [Runner.RunnerAction.invalidChoice "6", Runner.RunnerAction.menu] ∧
    Runner.demosRun (Runner.runnerMain ["ownership", "6", "extra"]) = [] :=
  (runner_cli_selector "ownership" ["extra"]).2.2.2.2.2.2.2.1 "6" (by decide)

/-- C6: `read_file_contents` propagates a failure of `open` or of
`read_to_string` to its caller unchanged as an `Err` value, and the
demonstration `main` matches on that `Err`, prints an error message, and
continues with the next demonstration instead of aborting. -/
theorem io_errors_recoverable (fs : ResultExamples.FileSystem) (path : String)
    (e : ResultExamples.IoError) :
    (fs.openFile path = Except.error e →
      ResultExamples.read_file_contents fs path = Except.error e) ∧
    (∀ h, fs.openFile path = Except.ok h → fs.readToString h = Except.error e →
      ResultExamples.read_file_contents fs path = Except.error e) ∧
    (fs.openFile "nonexistent.txt" = Except.error e →
      ResultExamples.mainFromDemo3 fs =
        "3. ? Operator (file reading):" ::
          ("   Error reading file: " ++ ResultExamples.describeIoError e) ::
          ResultExamples.demo4Lines) := by
  have hopen : ∀ p, fs.openFile p = Except.error e →
      ResultExamples.read_file_contents fs p = Except.error e := by
    intro p hp
    unfold ResultExamples.read_file_contents
    rw [hp]
    rfl
  refine ⟨hopen path, fun h hp hr => ?_, fun hp => ?_⟩
  · unfold ResultExamples.read_file_contents
    rw [hp]
    show (fs.readToString h).bind (fun c => pure c) = Except.error e
    rw [hr]
    rfl
  · unfold ResultExamples.mainFromDemo3 ResultExamples.demo3Lines
    rw [hopen "nonexistent.txt" hp]
    rfl

/-- C6 witness: with every file missing, the demonstration prints the
error-reading line and still produces the following demonstration's
output. -/
theorem io_errors_recoverable_witness :
    ResultExamples.mainFromDemo3 ResultExamples.fsAllMissing =
      "3. ? Operator (file reading):" ::
        ("   Error reading file: " ++
          ResultExamples.describeIoError ResultExamples.IoError.notFound) ::
        ResultExamples.demo4Lines :=
  (io_errors_recoverable ResultExamples.fsAllMissing "nonexistent.txt"
    ResultExamples.IoError.notFound).2.2 rfl

/-- C1: in every state reachable by the borrow-state machine, at most one
exclusive reference is active, and no exclusive reference is active while
any shared reference is. -/
theorem exclusive_aliasing_invariant (s : BorrowModel.BindingState)
    (h : BorrowModel.Reachable s) :
    s.exclusive ≤ 1 ∧ (0 < s.exclusive → s.shared = 0) := by
  induction h with
  | init => exact ⟨by decide, by decide⟩
  | step s e s' hr hstep ih =>
    obtain ⟨ph, sh, ex⟩ := s
    cases e with
    | borrowShared =>
      cases ph with
      | movedOut => exact absurd hstep (by simp [BorrowModel.step])
      | dropped => exact absurd hstep (by simp [BorrowModel.step])
      | live =>
        simp only [BorrowModel.step] at hstep
        split at hstep
        · exact absurd hstep (by simp)
        · rename_i hex
          injection hstep with h2
          subst h2
          exact ⟨ih.1, fun h0 => absurd h0 hex⟩
    | borrowExclusive =>
      cases ph with
      | movedOut => exact absurd hstep (by simp [BorrowModel.step])
      | dropped => exact absurd hstep (by simp [BorrowModel.step])
      | live =>
        simp only [BorrowModel.step] at hstep
        split at hstep
        · exact absurd hstep (by simp)
        · rename_i hex
          injection hstep with h2
          subst h2
          simp only [not_or] at hex
          constructor
          · show ex + 1 ≤ 1
            omega
          · intro _
            show sh = 0
            omega
    | endShared =>
      simp only [BorrowModel.step] at hstep
      injection hstep with h2
      subst h2
      refine ⟨ih.1, fun h0 => ?_⟩
      have hsh : sh = 0 := ih.2 h0
      show sh - 1 = 0
      omega
    | endExclusive =>
      simp only [BorrowModel.step] at hstep
      injection hstep with h2
      subst h2
      refine ⟨?_, fun h0 => ih.2 ?_⟩
      · have h1 : ex ≤ 1 := ih.1
        show ex - 1 ≤ 1
        omega
      · show 0 < ex
        have hx : 0 < ex - 1 := h0
        omega
    | moveOut =>
      cases ph with
      | movedOut => exact absurd hstep (by simp [BorrowModel.step])
      | dropped => exact absurd hstep (by simp [BorrowModel.step])
      | live =>
        simp only [BorrowModel.step] at hstep
        split at hstep
        · exact absurd hstep (by simp)
        · injection hstep with h2
          subst h2
          exact ih
    | useBinding =>
      cases ph with
      | movedOut => exact absurd hstep (by simp [BorrowModel.step])
      | dropped => exact absurd hstep (by simp [BorrowModel.step])
      | live =>
        simp only [BorrowModel.step] at hstep
        injection hstep with h2
        subst h2
        exact ih
  | drop s hr ih =>
    unfold BorrowModel.dropBinding
    split
    · exact ih
    · exact ih

/-- C1 witness: the state after creating two shared references is reachable
and satisfies the aliasing invariant. -/
theorem exclusive_aliasing_invariant_witness :
    (⟨BorrowModel.Phase.live, 2, 0⟩ : BorrowModel.BindingState).exclusive ≤ 1 ∧
      (0 < (⟨BorrowModel.Phase.live, 2, 0⟩ : BorrowModel.BindingState).exclusive →
        (⟨BorrowModel.Phase.live, 2, 0⟩ : BorrowModel.BindingState).shared = 0) :=
  exclusive_aliasing_invariant ⟨BorrowModel.Phase.live, 2, 0⟩
    (BorrowModel.Reachable.step ⟨BorrowModel.Phase.live, 1, 0⟩
      BorrowModel.Event.borrowShared ⟨BorrowModel.Phase.live, 2, 0⟩
      (BorrowModel.Reachable.step BorrowModel.initialBinding
        BorrowModel.Event.borrowShared ⟨BorrowModel.Phase.live, 1, 0⟩
        BorrowModel.Reachable.init rfl)
      rfl)

/-- C2: creating an exclusive reference while the binding is Shared(n>0) or
Exclusive fails with BorrowConflict, creating a shared reference while
Exclusive fails with BorrowConflict, and once the binding is back to Owned
an exclusive borrow succeeds — as in the demonstrate_borrow_rules sequence
(two shared borrows, their last uses, then the exclusive borrow). -/
theorem borrow_conflict_rules (s : BorrowModel.BindingState)
    (hlive : s.phase = BorrowModel.Phase.live) :
    (0 < s.shared ∨ 0 < s.exclusive →
      BorrowModel.step s BorrowModel.Event.borrowExclusive =
        Except.error BorrowModel.CheckError.borrowConflict) ∧
    (0 < s.exclusive →
      BorrowModel.step s BorrowModel.Event.borrowShared =
        Except.error BorrowModel.CheckError.borrowConflict) ∧
    (s.shared = 0 → s.exclusive = 0 →
      BorrowModel.step s BorrowModel.Event.borrowExclusive =
        Except.ok { s with exclusive := s.exclusive + 1 }) ∧
    BorrowModel.runEvents BorrowModel.initialBinding
      [BorrowModel.Event.borrowShared, BorrowModel.Event.borrowShared,
       BorrowModel.Event.endShared, BorrowModel.Event.endShared,
       BorrowModel.Event.borrowExclusive] =
      Except.ok ⟨BorrowModel.Phase.live, 0, 1⟩ := by
  obtain ⟨ph, sh, ex⟩ := s
  cases hlive
  refine ⟨fun hor => ?_, fun hex => ?_, fun h1 h2 => ?_, by rfl⟩
  · show (if 0 < sh ∨ 0 < ex then _ else _) = _
    rw [if_pos hor]
  · show (if 0 < ex then _ else _) = _
    rw [if_pos hex]
  · have h1' : sh = 0 := h1
    have h2' : ex = 0 := h2
    show (if 0 < sh ∨ 0 < ex then _ else _) = _
    rw [if_neg (by omega)]

/-- C2 witness: with two shared references active, an exclusive borrow is
rejected with BorrowConflict. -/
theorem borrow_conflict_rules_witness :
    BorrowModel.step ⟨BorrowModel.Phase.live, 2, 0⟩
      BorrowModel.Event.borrowExclusive =
      Except.error BorrowModel.CheckError.borrowConflict :=
  (borrow_conflict_rules ⟨BorrowModel.Phase.live, 2, 0⟩ rfl).1 (Or.inl (by decide))

/-- C3: once a binding is Moved-out, any use fails with UseAfterMove, every
successful transition leaves it Moved-out (the state is terminal, drop at
scope exit included), and the demonstrate_move sequence — move the binding,
then use it — fails with UseAfterMove. -/
theorem use_after_move_terminal (s : BorrowModel.BindingState)
    (h : s.phase = BorrowModel.Phase.movedOut) :
    BorrowModel.step s BorrowModel.Event.useBinding =
      Except.error BorrowModel.CheckError.useAfterMove ∧
    (∀ e s', BorrowModel.step s e = Except.ok s' →
      s'.phase = BorrowModel.Phase.movedOut) ∧
    (BorrowModel.dropBinding s).phase = BorrowModel.Phase.movedOut ∧
    BorrowModel.runEvents BorrowModel.initialBinding
      [BorrowModel.Event.moveOut, BorrowModel.Event.useBinding] =
      Except.error BorrowModel.CheckError.useAfterMove := by
  obtain ⟨ph, sh, ex⟩ := s
  cases h
  refine ⟨rfl, fun e s' hstep => ?_, by rfl, by rfl⟩
  cases e with
  | borrowShared => exact absurd hstep (by simp [BorrowModel.step])
  | borrowExclusive => exact absurd hstep (by simp [BorrowModel.step])
  | endShared =>
    simp only [BorrowModel.step] at hstep
    injection hstep with h2
    subst h2
    rfl
  | endExclusive =>
    simp only [BorrowModel.step] at hstep
    injection hstep with h2
    subst h2
    rfl
  | moveOut => exact absurd hstep (by simp [BorrowModel.step])
  | useBinding => exact absurd hstep (by simp [BorrowModel.step])

/-- C3 witness: using a Moved-out binding fails with UseAfterMove. -/
theorem use_after_move_terminal_witness :
    BorrowModel.step ⟨BorrowModel.Phase.movedOut, 0, 0⟩
      BorrowModel.Event.useBinding =
      Except.error BorrowModel.CheckError.useAfterMove :=
  (use_after_move_terminal ⟨BorrowModel.Phase.movedOut, 0, 0⟩ rfl).1

/-- C4: passing or assigning a Copy-semantics value leaves the source
binding's state unchanged, and the source never becomes Moved-out — it
remains usable afterwards. -/
theorem copy_semantics_frame (s : BorrowModel.BindingState)
    (h : s.phase = BorrowModel.Phase.live) :
    BorrowModel.assignPass BorrowModel.Classification.copySem s = Except.ok s ∧
    (∀ s', BorrowModel.assignPass BorrowModel.Classification.copySem s = Except.ok s' →
      s'.phase ≠ BorrowModel.Phase.movedOut ∧
      BorrowModel.step s' BorrowModel.Event.useBinding = Except.ok s') := by
  obtain ⟨ph, sh, ex⟩ := s
  cases h
  refine ⟨rfl, fun s' hstep => ?_⟩
  simp only [BorrowModel.assignPass] at hstep
  injection hstep with h2
  subst h2
  exact ⟨by simp, rfl⟩

/-- C4 witness: a freshly declared Copy-semantics binding passed as an
argument stays Owned. -/
theorem copy_semantics_frame_witness :
    BorrowModel.assignPass BorrowModel.Classification.copySem
      BorrowModel.initialBinding = Except.ok BorrowModel.initialBinding :=
  (copy_semantics_frame BorrowModel.initialBinding rfl).1

/-- C5: scope exit maps each binding through `dropBinding`; the release log
names exactly the still-Owned bindings, in reverse declaration order; a
binding becomes Dropped by `dropBinding` exactly when it was still Owned;
and a Moved-out binding is untouched. -/
theorem scope_exit_drop (scope : List (String × BorrowModel.BindingState)) :
    (BorrowModel.dropScope scope).1 =
      scope.map (fun p => (p.1, BorrowModel.dropBinding p.2)) ∧
    (BorrowModel.dropScope scope).2 =
      ((scope.filter fun p => BorrowModel.stillOwned p.2).map (fun p => p.1)).reverse ∧
    (∀ b : BorrowModel.BindingState,
      ((BorrowModel.dropBinding b).phase = BorrowModel.Phase.dropped ∧
        b.phase ≠ BorrowModel.Phase.dropped) ↔ BorrowModel.stillOwned b = true) ∧
    (∀ b : BorrowModel.BindingState, b.phase = BorrowModel.Phase.movedOut →
      BorrowModel.dropBinding b = b) := by
  have h12 : ∀ sc : List (String × BorrowModel.BindingState),
      (BorrowModel.dropScope sc).1 =
        sc.map (fun p => (p.1, BorrowModel.dropBinding p.2)) ∧
      (BorrowModel.dropScope sc).2 =
        ((sc.filter fun p => BorrowModel.stillOwned p.2).map (fun p => p.1)).reverse := by
    intro sc
    induction sc with
    | nil => exact ⟨rfl, rfl⟩
    | cons entry rest ih =>
      constructor
      · show (entry.1, BorrowModel.dropBinding entry.2) :: (BorrowModel.dropScope rest).1 = _
        rw [List.map_cons, ih.1]
      · show (BorrowModel.dropScope rest).2 ++
          (if BorrowModel.stillOwned entry.2 then [entry.1] else []) = _
        by_cases he : BorrowModel.stillOwned entry.2
        · rw [if_pos he, List.filter_cons_of_pos (by simpa using he), List.map_cons,
            List.reverse_cons, ih.2]
        · rw [if_neg he, List.filter_cons_of_neg (by simpa using he), List.append_nil, ih.2]
  refine ⟨(h12 scope).1, (h12 scope).2, fun b => ?_, fun b hb => ?_⟩
  · unfold BorrowModel.dropBinding
    by_cases hbo : BorrowModel.stillOwned b
    · rw [if_pos hbo]
      have hph : b.phase = BorrowModel.Phase.live := by
        obtain ⟨ph, sh, ex⟩ := b
        cases ph with
        | live => rfl
        | movedOut => exact Bool.noConfusion hbo
        | dropped => exact Bool.noConfusion hbo
      simp [hph, hbo]
    · rw [if_neg hbo]
      constructor
      · rintro ⟨hx, hy⟩
        exact absurd hx hy
      · intro hf
        exact absurd hf hbo
  · have hfalse : BorrowModel.stillOwned b = false := by
      simp only [BorrowModel.stillOwned, hb]
      rfl
    unfold BorrowModel.dropBinding
    rw [if_neg (by simp [hfalse])]

/-- C5 witness: in a scope declaring a, b, c where b was moved out, scope
exit releases c then a and leaves b untouched. -/
theorem scope_exit_drop_witness :
    BorrowModel.dropBinding ⟨BorrowModel.Phase.movedOut, 0, 0⟩ =
      ⟨BorrowModel.Phase.movedOut, 0, 0⟩ ∧
    (BorrowModel.dropScope
      [("a", BorrowModel.initialBinding),
       ("b", ⟨BorrowModel.Phase.movedOut, 0, 0⟩),
       ("c", BorrowModel.initialBinding)]).2 = ["c", "a"] :=
  ⟨(scope_exit_drop []).2.2.2 ⟨BorrowModel.Phase.movedOut, 0, 0⟩ rfl, by rfl⟩
